import Mathlib

/-!
Shallow embedding of `src/simple-vector/simple_vector.h`: the class
`SimpleVector<Type>`, a dynamic array keeping `size_t capacity`, `size_t size`
and an owned buffer `ArrayPtr<Type> array`.

Modelling conventions:
- `Type` becomes a Lean type `α` with a default value (`Type()` in C++ is
  `default`); element moves are modelled as copies, which is exact for the
  value types the properties are instantiated at.
- The owned buffer is a `List α` whose length is the number of allocated
  slots; iterators are modelled as offsets (distances from `begin()`).
- `size_t` values become `Nat` (no operation here can overflow `size_t`
  other than by first exhausting memory, which the model does not track).
- Fallible paths (`At` throwing, the undefined stale-pointer path of the
  copy overload of `Insert`) return `Except`/`Option`.
-/

section Model

variable {α : Type} [Inhabited α]

/-- Modelled from the spec: the Buffer collaborator `ArrayPtr` lives in
`array_ptr.h`, which is not under `src/`; only its call sites are. Per the
spec, `allocate(capacity)` yields a buffer owning `capacity` raw slots whose
contents are value-indeterminate; the model fills them with the default
value, and the default-constructed `ArrayPtr` owns no slots. No confirmed
claim depends on the choice of slot contents at allocation. -/
def ArrayPtr.allocate (n : Nat) : List α := List.replicate n default

/-- State of `SimpleVector<Type>` (lines 21-27): the fields `capacity` and
`size` and the owned buffer `array`, modelled as the list of its slots. The
member default initializers give capacity 0, size 0 and an empty buffer. -/
structure SimpleVector (α : Type) where
  capacity : Nat := 0
  size : Nat := 0
  array : List α := []
  deriving DecidableEq

namespace SimpleVector

/-- The live element sequence `[begin(), end())`: buffer slots `[0, size)`. -/
def elems (v : SimpleVector α) : List α := v.array.take v.size

/-- Default constructor `SimpleVector()` (member initializers, lines 23-26). -/
def mkDefault : SimpleVector α := {}

/-- Constructor `SimpleVector(size_t size)` (line 35): capacity = size = n, allocate n
slots, then `std::fill(begin(), end(), Type())` overwrites all n slots. -/
def mkSized (n : Nat) : SimpleVector α :=
  { capacity := n, size := n, array := List.replicate n default }

/-- Constructor `SimpleVector(size_t size, const Type& value)` (line 40): as `mkSized`
but filled with `value`. -/
def mkFilled (n : Nat) (value : α) : SimpleVector α :=
  { capacity := n, size := n, array := List.replicate n value }

/-- Constructor `SimpleVector(ReserveProxyObj capacity)` (line 44): capacity = n,
size = 0, allocate n slots without initializing logical elements. -/
def mkReserved (n : Nat) : SimpleVector α :=
  { capacity := n, size := 0, array := ArrayPtr.allocate n }

/-- Constructor `SimpleVector(std::initializer_list<Type>)` (line 47): size = capacity =
length, elements copied in order over the freshly allocated slots. -/
def mkInit (l : List α) : SimpleVector α :=
  { capacity := l.length, size := l.length, array := l }

/-- Copy constructor (line 51): capacity = size = other.size, buffer of
`other.size` slots holding a copy of the live elements of `other`. -/
def copyCtor (other : SimpleVector α) : SimpleVector α :=
  { capacity := other.size, size := other.size, array := elems other }

/-- Method `void swap(SimpleVector&) noexcept` (lines 134-138): exchanges `array`,
`size` and `capacity` member-wise; the result is `(this, other)` after. -/
def swap (a b : SimpleVector α) : SimpleVector α × SimpleVector α :=
  ({ capacity := b.capacity, size := b.size, array := b.array },
   { capacity := a.capacity, size := a.size, array := a.array })

/-- Move constructor `SimpleVector(SimpleVector&&)` (lines 55-57): members
start at their default initializers, then `swap(other)`; the result is
`(the constructed vector, the moved-from other)`. -/
def moveCtor (other : SimpleVector α) : SimpleVector α × SimpleVector α :=
  swap mkDefault other

/-- Copy assignment `operator=` (lines 59-68): build
`tmp = SimpleVector(rhs.size)` (capacity = size = rhs.size, all slots
default), `std::copy` the live elements of rhs over `tmp[0, rhs.size)`,
`swap(tmp)` (the old state of this goes into tmp and is destroyed), then
overwrite `capacity = rhs.capacity` and `size = rhs.size`. When rhs is
well-formed the copied range fills every slot, so the padding is empty. -/
def assign (_this rhs : SimpleVector α) : SimpleVector α :=
  let tmp : SimpleVector α :=
    { capacity := rhs.size, size := rhs.size,
      array := elems rhs ++ List.replicate (rhs.size - (elems rhs).length) default }
  { tmp with capacity := rhs.capacity, size := rhs.size }

/-- Method `void Resize(size_t new_size)` (lines 197-213). If `new_size <= size`,
or `new_size < capacity`, only `size` is assigned. Otherwise a buffer of
`max(new_size, capacity * 2)` slots is allocated, the live elements are
moved into its front, `std::generate` default-initializes slots
`[size, new_size)`, the remaining slots keep their allocation contents
(default in this model), and `capacity`, `size` and the buffer are updated. -/
def Resize (v : SimpleVector α) (new_size : Nat) : SimpleVector α :=
  if new_size ≤ v.size then
    { v with size := new_size }
  else if new_size < v.capacity then
    { v with size := new_size }
  else
    let new_capacity := max new_size (v.capacity * 2)
    { capacity := new_capacity, size := new_size,
      array := v.array.take v.size
               ++ List.replicate (new_size - v.size) default
               ++ List.replicate (new_capacity - new_size) default }

/-- Method `void Reserve(const ReserveProxyObj&)` (lines 70-79): if `c < capacity`,
return unchanged. Otherwise build `tmp = SimpleVector(c)` (all `c` slots
default-filled), `std::move` the live elements over `tmp[0, size)`, swap,
and restore `size`. Faithful whenever `size <= c`, which the no-op guard
plus `size <= capacity` guarantees for well-formed states. -/
def Reserve (v : SimpleVector α) (c : Nat) : SimpleVector α :=
  if c < v.capacity then v
  else
    { capacity := c, size := v.size,
      array := elems v ++ List.replicate (c - (elems v).length) default }

/-- The condition of the precondition assertion shared by both `Insert`
overloads, `assert(pos >= begin() && pos < end())` (lines 96 and 106), with
`pos` modelled as the offset `d` from `begin()` (so `pos >= begin()` is
`0 <= d`). -/
def insertAssert (v : SimpleVector α) (d : Nat) : Bool :=
  decide (0 ≤ d) && decide (d < v.size)

/-- Method `Iterator Insert(ConstIterator pos, const Type& value)` (lines 95-103),
the copy overload, `pos` at offset `d`. The code captures `iter = pos`
before calling `Resize(size + 1)`. When that call reallocates (that is,
when `size + 1 >= capacity`), `iter` still points into the old buffer while
`end()` points into the new one, and the following
`std::move_backward(iter, end(), end() + 1)` walks pointers of two
different arrays: undefined behavior, modelled as `none`. Otherwise
`Resize` set `size := size + 1` in place, `move_backward` shifts slots
`[d, size + 1)` one slot right, `*iter = value` writes slot `d`, and the
final `++size` bumps `size` a second time. Returns the new state and the
offset of the returned iterator. -/
def InsertCopy (v : SimpleVector α) (d : Nat) (value : α) :
    Option (SimpleVector α × Nat) :=
  if v.size + 1 < v.capacity then
    some ({ capacity := v.capacity, size := v.size + 2,
            array := v.array.take d ++ [value]
                     ++ (v.array.drop d).take (v.size + 1 - d)
                     ++ v.array.drop (v.size + 2) }, d)
  else none

/-- Method `Iterator Insert(Iterator pos, Type&& value)` (lines 105-114), the move
overload. `dist = std::distance(begin(), pos)` is taken before
`Resize(size + 1)` and re-applied to the new `begin()` afterwards, so this
overload survives reallocation. `std::move_backward` shifts slots
`[dist, old size)` one slot right, then `std::exchange` writes `value` into
slot `dist`. `++size` is commented out in the source, so the size is the
`old size + 1` set by `Resize`. Returns the new state and the offset of the
returned iterator. -/
def InsertMove (v : SimpleVector α) (d : Nat) (value : α) :
    SimpleVector α × Nat :=
  let w := Resize v (v.size + 1)
  ({ w with array := w.array.take d ++ [value]
            ++ (w.array.drop d).take (v.size - d)
            ++ w.array.drop (v.size + 1) },
   d)

/-- Method `void PushBack(const Type& item)` (lines 83-85): `Insert(end(), item)`,
the copy overload, at offset `size`. -/
def PushBackCopy (v : SimpleVector α) (item : α) : Option (SimpleVector α × Nat) :=
  InsertCopy v v.size item

/-- Method `void PushBack(Type&& item)` (lines 87-89): `Insert(end(), item)`, the
move overload, at offset `size`. -/
def PushBackMove (v : SimpleVector α) (item : α) : SimpleVector α × Nat :=
  InsertMove v v.size item

/-- Method `void PopBack() noexcept` (lines 117-122): return if `size == 0`, else
decrement `size`. -/
def PopBack (v : SimpleVector α) : SimpleVector α :=
  if v.size = 0 then v else { v with size := v.size - 1 }

/-- Method `Iterator Erase(ConstIterator pos)` (lines 125-131), `pos` at offset
`n = std::distance(cbegin(), pos)`: `std::move(begin() + n + 1, end(),
begin() + n)` shifts the elements after `pos` one slot left (slot
`size - 1` keeps its value, it is merely excluded), `--size`, and
`begin() + n` is returned. -/
def Erase (v : SimpleVector α) (n : Nat) : SimpleVector α × Nat :=
  let a' := v.array.take n
            ++ (v.array.drop (n + 1)).take (v.size - (n + 1))
            ++ v.array.drop (v.size - 1)
  ({ v with size := v.size - 1, array := a' }, n)

/-- Method `size_t GetSize() const noexcept` (lines 146-148). -/
def GetSize (v : SimpleVector α) : Nat := v.size

/-- Method `size_t GetCapacity() const noexcept` (lines 151-153). -/
def GetCapacity (v : SimpleVector α) : Nat := v.capacity

/-- Method `bool IsEmpty() const noexcept` (lines 156-158). -/
def IsEmpty (v : SimpleVector α) : Bool := v.size == 0

/-- Operator `Type& operator[](size_t index) noexcept` (lines 161-164):
`*(array.Get() + index)`, with `assert(index < size)` as precondition. -/
def opIndex (v : SimpleVector α) (index : Nat) : α :=
  v.array.getD index default

/-- Method `Type& At(size_t index)` (lines 174-180): the element when
`index < size`, otherwise `throw std::out_of_range("out of range")`. -/
def At (v : SimpleVector α) (index : Nat) : Except String α :=
  if index < v.size then .ok (v.array.getD index default)
  else .error "out of range"

/-- Method `void Clear() noexcept` (lines 193-195): `size = 0`. -/
def Clear (v : SimpleVector α) : SimpleVector α := { v with size := 0 }

/-- Well-formed state: the spec invariant tying the fields to the owned
buffer: `size ≤ capacity` and the buffer holds exactly `capacity` slots. -/
def WF (v : SimpleVector α) : Prop :=
  v.size ≤ v.capacity ∧ v.array.length = v.capacity

instance (v : SimpleVector α) : Decidable (WF v) :=
  inferInstanceAs (Decidable (v.size ≤ v.capacity ∧ v.array.length = v.capacity))

end SimpleVector

end Model

open SimpleVector

/-! ## Claims -/

/-- C1: the claim states that both `Insert` overloads increase `size` by
exactly 1 and leave the other elements in order. The copy overload refutes
it: on the vector `[1, 2]` with capacity 5 (precondition satisfied at
offset 1), inserting 9 leaves `size = 4` instead of 3, and the live
sequence is `[1, 9, 2, 0]` instead of `[1, 9, 2]`: `Resize(size + 1)`
already set the new size and the trailing `++size` adds 1 more, dragging a
stale slot into the live range. -/
theorem C1_insert_copy_breaks_size_and_order :
    (Reserve (mkInit [1, 2] : SimpleVector Nat) 5).size = 2 ∧
    insertAssert (Reserve (mkInit [1, 2] : SimpleVector Nat) 5) 1 = true ∧
    (InsertCopy (Reserve (mkInit [1, 2] : SimpleVector Nat) 5) 1 9).map
      (fun p => (p.1.size, elems p.1, p.2)) = some (4, [1, 9, 2, 0], 1) := by
  decide

/-- C2: the claim states that after every public operation the capacity
field equals the number of allocated buffer slots. Copy assignment refutes
it: assigning from a well-formed vector with size 0 and capacity 5 leaves
the target with `capacity = 5` while its swapped-in buffer owns only
`rhs.size = 0` slots, because `operator=` overwrites `capacity` with
`rhs.capacity` after the swap. -/
theorem C2_assign_capacity_exceeds_allocation :
    WF (mkReserved 5 : SimpleVector Nat) ∧
    (assign mkDefault (mkReserved 5) : SimpleVector Nat).capacity = 5 ∧
    (assign mkDefault (mkReserved 5) : SimpleVector Nat).array.length = 0 := by
  decide

/-- C3: `PushBack` is by definition `Insert(end(), value)` (both overloads),
but the position `end()`, at offset `size`, always violates the `Insert`
precondition assertion `pos >= begin() && pos < end()`, since `pos < end()`
demands `size < size`. The claim that the assertion never fails on the
`PushBack` path is therefore false for every vector, including the empty
one. -/
theorem C3_pushback_violates_insert_assert (v : SimpleVector Nat) (x : Nat) :
    PushBackCopy v x = InsertCopy v v.size x ∧
    PushBackMove v x = InsertMove v v.size x ∧
    insertAssert v v.size = false := by
  refine ⟨rfl, rfl, ?_⟩
  simp [insertAssert]

/-- C4: `Resize(newSize)` case split. If `newSize ≤ size`, only the size
field is assigned (capacity and buffer untouched). If
`size < newSize < capacity`, likewise in place. Otherwise the new capacity
is `max(newSize, capacity * 2)` (which is `newSize` from capacity 0), the
first `size` elements are preserved in order, and the size becomes
`newSize`. -/
theorem C4_resize_cases (v : SimpleVector Nat) (n : Nat) (hwf : WF v) :
    (n ≤ v.size → Resize v n = { v with size := n }) ∧
    (v.size < n → n < v.capacity → Resize v n = { v with size := n }) ∧
    (v.size < n → v.capacity ≤ n →
      (Resize v n).capacity = max n (v.capacity * 2) ∧
      (v.capacity = 0 → (Resize v n).capacity = n) ∧
      (Resize v n).size = n ∧
      (Resize v n).array.take v.size = elems v) := by
  obtain ⟨hsc, hlen⟩ := hwf
  refine ⟨?_, ?_, ?_⟩
  · intro h
    simp only [Resize, if_pos h]
  · intro h1 h2
    simp only [Resize]
    rw [if_neg (by omega), if_pos h2]
  · intro h1 h2
    have e : Resize v n =
        { capacity := max n (v.capacity * 2), size := n,
          array := v.array.take v.size
                   ++ List.replicate (n - v.size) default
                   ++ List.replicate (max n (v.capacity * 2) - n) default } := by
      simp only [Resize]
      rw [if_neg (by omega), if_neg (by omega)]
    rw [e]
    refine ⟨rfl, ?_, rfl, ?_⟩
    · intro h0
      simp [h0]
    · have hA : v.size ≤ (v.array.take v.size).length := by
        rw [List.length_take_of_le (by omega)]
      rw [List.append_assoc, List.take_append_of_le_length hA, List.take_take,
        Nat.min_self]
      rfl

/-- Witness for C4 at the reallocating case: resizing `[1, 2, 3]` (size =
capacity = 3) to 5 gives capacity `max 5 (3 * 2) = 6`, size 5, and keeps
the first three elements. -/
theorem C4_resize_cases_witness :
    WF (mkInit [1, 2, 3] : SimpleVector Nat) ∧
    (mkInit [1, 2, 3] : SimpleVector Nat).size < 5 ∧
    (mkInit [1, 2, 3] : SimpleVector Nat).capacity ≤ 5 ∧
    ((Resize (mkInit [1, 2, 3] : SimpleVector Nat) 5).capacity =
        max 5 ((mkInit [1, 2, 3] : SimpleVector Nat).capacity * 2) ∧
      ((mkInit [1, 2, 3] : SimpleVector Nat).capacity = 0 →
        (Resize (mkInit [1, 2, 3] : SimpleVector Nat) 5).capacity = 5) ∧
      (Resize (mkInit [1, 2, 3] : SimpleVector Nat) 5).size = 5 ∧
      (Resize (mkInit [1, 2, 3] : SimpleVector Nat) 5).array.take
          (mkInit [1, 2, 3] : SimpleVector Nat).size =
        elems (mkInit [1, 2, 3] : SimpleVector Nat)) :=
  ⟨by decide, by decide, by decide,
    (C4_resize_cases (mkInit [1, 2, 3]) 5 (by decide)).2.2 (by decide) (by decide)⟩

/-- C5: the claim states that growing within existing capacity
value-initializes the newly live slots, so reading them afterwards yields
the default value. Refuted: `SimpleVector(3, 7)` resized down to 1 and back
up to 2 takes the in-place branch (1 < 2 < 3), which only assigns `size`;
slot 1 still holds the stale value 7, not the default 0. -/
theorem C5_inplace_growth_leaves_stale_values :
    (Resize (mkFilled 3 (7 : Nat)) 1).size = 1 ∧
    (Resize (mkFilled 3 (7 : Nat)) 1).capacity = 3 ∧
    (Resize (Resize (mkFilled 3 (7 : Nat)) 1) 2).size = 2 ∧
    At (Resize (Resize (mkFilled 3 (7 : Nat)) 1) 2) 1 = .ok 7 ∧
    (7 : Nat) ≠ default :=
  ⟨rfl, rfl, rfl, rfl, by decide⟩

/-- C6: `Reserve(c)` with `c < capacity` is a no-op; with `c ≥ capacity` it
sets the capacity to exactly `c` while preserving the size and the live
element sequence; and it never decreases the capacity. -/
theorem C6_reserve_spec (v : SimpleVector Nat) (c : Nat) (hwf : WF v) :
    (c < v.capacity → Reserve v c = v) ∧
    (v.capacity ≤ c →
      (Reserve v c).capacity = c ∧
      (Reserve v c).size = v.size ∧
      elems (Reserve v c) = elems v) ∧
    v.capacity ≤ (Reserve v c).capacity := by
  obtain ⟨hsc, hlen⟩ := hwf
  have hgrow : ¬ c < v.capacity →
      Reserve v c =
        { capacity := c, size := v.size,
          array := elems v ++ List.replicate (c - (elems v).length) default } := by
    intro h
    simp only [Reserve]
    rw [if_neg h]
  refine ⟨?_, ?_, ?_⟩
  · intro h
    simp only [Reserve, if_pos h]
  · intro h
    rw [hgrow (by omega)]
    refine ⟨rfl, rfl, ?_⟩
    have hA : v.size ≤ (elems v).length := by
      have : (elems v).length = v.size := by
        simp only [elems]
        exact List.length_take_of_le (by omega)
      omega
    show (elems v ++ List.replicate (c - (elems v).length) default).take v.size = elems v
    rw [List.take_append_of_le_length hA]
    simp [elems, List.take_take]
  · by_cases h : c < v.capacity
    · simp only [Reserve, if_pos h]
      exact Nat.le_refl _
    · rw [hgrow h]
      show v.capacity ≤ c
      omega

/-- Witness for C6 at the growing case: reserving 5 on `[1, 2]` (capacity 2)
gives capacity exactly 5 and keeps size and elements. -/
theorem C6_reserve_spec_witness :
    (mkInit [1, 2] : SimpleVector Nat).capacity ≤ 5 ∧
    ((Reserve (mkInit [1, 2] : SimpleVector Nat) 5).capacity = 5 ∧
      (Reserve (mkInit [1, 2] : SimpleVector Nat) 5).size =
        (mkInit [1, 2] : SimpleVector Nat).size ∧
      elems (Reserve (mkInit [1, 2] : SimpleVector Nat) 5) =
        elems (mkInit [1, 2] : SimpleVector Nat)) :=
  ⟨by decide, (C6_reserve_spec (mkInit [1, 2]) 5 (by decide)).2.1 (by decide)⟩

/-- C7: `At(index)` signals out-of-range exactly when `index ≥ size`, and
for `index < size` it returns the element the unchecked `operator[]`
returns. -/
theorem C7_at_checked_access (v : SimpleVector Nat) (i : Nat) :
    (At v i = .error "out of range" ↔ v.size ≤ i) ∧
    (i < v.size → At v i = .ok (opIndex v i)) := by
  by_cases h : i < v.size
  · constructor
    · simp only [At, if_pos h]
      constructor
      · intro hcontra
        exact absurd hcontra (by simp)
      · intro hle
        omega
    · intro _
      simp [At, opIndex, h]
  · constructor
    · simp only [At, if_neg h]
      constructor
      · intro _
        omega
      · intro _
        trivial
    · intro hlt
      exact absurd hlt h

/-- Witness for C7: on the vector `[4, 5]`, index 1 is checked-readable and
agrees with the unchecked accessor, and index 5 signals out-of-range. -/
theorem C7_at_checked_access_witness :
    At (mkInit [4, 5] : SimpleVector Nat) 1 =
      .ok (opIndex (mkInit [4, 5] : SimpleVector Nat) 1) ∧
    At (mkInit [4, 5] : SimpleVector Nat) 5 = .error "out of range" :=
  ⟨(C7_at_checked_access (mkInit [4, 5]) 1).2 (by decide),
   (C7_at_checked_access (mkInit [4, 5]) 5).1.mpr (by decide)⟩

/-- C8: `Erase` at a valid offset `n < size` decreases the size by exactly
1, returns the offset of the erased position (which equals the new size,
that is `end()`, exactly when the last element was erased), and the live
sequence afterwards is the original one with the element at `n` removed:
elements before `n` preserved, elements after `n` shifted one slot left in
order. -/
theorem C8_erase_shifts_left (v : SimpleVector Nat) (n : Nat) (hwf : WF v)
    (h : n < v.size) :
    (Erase v n).1.size = v.size - 1 ∧
    (Erase v n).2 = n ∧
    elems (Erase v n).1 = (elems v).take n ++ (elems v).drop (n + 1) ∧
    ((Erase v n).2 = (Erase v n).1.size ↔ n = v.size - 1) := by
  obtain ⟨hsc, hlen⟩ := hwf
  refine ⟨rfl, rfl, ?_, Iff.rfl⟩
  show (v.array.take n
      ++ (v.array.drop (n + 1)).take (v.size - (n + 1))
      ++ v.array.drop (v.size - 1)).take (v.size - 1) =
    (elems v).take n ++ (elems v).drop (n + 1)
  have hA : (v.array.take n).length = n :=
    List.length_take_of_le (by omega)
  have hB : ((v.array.drop (n + 1)).take (v.size - (n + 1))).length =
      v.size - (n + 1) := by
    rw [List.length_take_of_le (by simp; omega)]
  have hAB : v.size - 1 ≤
      (v.array.take n ++ (v.array.drop (n + 1)).take (v.size - (n + 1))).length := by
    rw [List.length_append, hA, hB]
    omega
  rw [List.take_append_of_le_length hAB,
    List.take_of_length_le (by rw [List.length_append, hA, hB]; omega)]
  simp only [elems, List.take_take, Nat.min_eq_left (Nat.le_of_lt h),
    List.drop_take]

/-- Witness for C8: erasing offset 1 of `[1, 2, 3]` gives size 2, returns
offset 1, and leaves the live sequence `[1, 3]`. -/
theorem C8_erase_shifts_left_witness :
    (Erase (mkInit [1, 2, 3] : SimpleVector Nat) 1).1.size =
      (mkInit [1, 2, 3] : SimpleVector Nat).size - 1 ∧
    (Erase (mkInit [1, 2, 3] : SimpleVector Nat) 1).2 = 1 ∧
    elems (Erase (mkInit [1, 2, 3] : SimpleVector Nat) 1).1 =
      (elems (mkInit [1, 2, 3] : SimpleVector Nat)).take 1
        ++ (elems (mkInit [1, 2, 3] : SimpleVector Nat)).drop (1 + 1) ∧
    ((Erase (mkInit [1, 2, 3] : SimpleVector Nat) 1).2 =
        (Erase (mkInit [1, 2, 3] : SimpleVector Nat) 1).1.size ↔
      1 = (mkInit [1, 2, 3] : SimpleVector Nat).size - 1) :=
  C8_erase_shifts_left (mkInit [1, 2, 3]) 1 (by decide) (by decide)

/-- C9: `PopBack` on an empty vector is a no-op (the whole state, hence
size 0 and the capacity, is unchanged and nothing fails); on a non-empty
vector it decreases the size by exactly 1 and leaves the capacity and the
elements at the remaining indices unchanged. -/
theorem C9_popback (v : SimpleVector Nat) :
    (v.size = 0 → PopBack v = v) ∧
    (0 < v.size →
      (PopBack v).size = v.size - 1 ∧
      (PopBack v).capacity = v.capacity ∧
      elems (PopBack v) = (elems v).take (v.size - 1)) := by
  constructor
  · intro h
    simp only [PopBack, if_pos h]
  · intro h
    have hne : ¬ v.size = 0 := by omega
    have e : PopBack v = { v with size := v.size - 1 } := by
      simp only [PopBack, if_neg hne]
    rw [e]
    refine ⟨rfl, rfl, ?_⟩
    show v.array.take (v.size - 1) = (v.array.take v.size).take (v.size - 1)
    rw [List.take_take, Nat.min_eq_left (Nat.sub_le _ _)]

/-- Witness for C9: PopBack on the default-constructed empty vector is a
no-op, and PopBack on `[1, 2]` gives size 1, same capacity, elements `[1]`. -/
theorem C9_popback_witness :
    PopBack (mkDefault : SimpleVector Nat) = mkDefault ∧
    ((PopBack (mkInit [1, 2] : SimpleVector Nat)).size =
        (mkInit [1, 2] : SimpleVector Nat).size - 1 ∧
      (PopBack (mkInit [1, 2] : SimpleVector Nat)).capacity =
        (mkInit [1, 2] : SimpleVector Nat).capacity ∧
      elems (PopBack (mkInit [1, 2] : SimpleVector Nat)) =
        (elems (mkInit [1, 2] : SimpleVector Nat)).take
          ((mkInit [1, 2] : SimpleVector Nat).size - 1)) :=
  ⟨(C9_popback mkDefault).1 rfl, (C9_popback (mkInit [1, 2])).2 (by decide)⟩

/-- C10: the move constructor default-initializes its members and then
swaps with the source, so the constructed vector holds exactly the former
size, capacity and element sequence of the source, and the moved-from
source is left exactly empty: size 0, capacity 0 and the default
(unallocated) buffer. -/
theorem C10_move_ctor_empties_source (v : SimpleVector Nat) :
    (moveCtor v).1.size = v.size ∧
    (moveCtor v).1.capacity = v.capacity ∧
    elems (moveCtor v).1 = elems v ∧
    (moveCtor v).2.size = 0 ∧
    (moveCtor v).2.capacity = 0 ∧
    (moveCtor v).2.array = [] := by
  refine ⟨rfl, rfl, rfl, rfl, rfl, rfl⟩
